import Mathlib

/-!
# CookShare (src/src/App.js): a shallow embedding of the view model

The `App` component keeps its state in React state cells and talks to three
external services (auth, document store, object store).  Each handler of the
component is embedded as a function from the state captured by the handler's
closure and the answers of the external services to the trace of observable
steps it performs: state-cell writes, service calls, console output, alerts.
The state after a handler is the captured state with the trace's writes applied
in order.
-/

namespace CookShare

/-! ## Data model -/

/-- Firebase user object, as far as the component reads it. `displayName` is
null until a profile update sets it. -/
structure User where
  uid : String
  displayName : Option String
  email : String
deriving DecidableEq, Repr

/-- Browser `File` picked in the photo input; only its name is read. -/
structure File where
  name : String
deriving DecidableEq, Repr

/-- Value written to `createdAt`: the store's server-timestamp sentinel, or a
concrete client-side clock value in milliseconds. -/
inductive CreatedAtValue where
  | serverTimestamp
  | clientMillis (ms : Nat)
deriving DecidableEq, Repr

/-- Object literal passed to `addDoc` in `handleCreatePost` (App.js 121-132).
`cookTime` is the result of `parseInt`, `none` standing for NaN. -/
structure PostRecord where
  dishName : String
  description : String
  cookTime : Option Int
  photoURL : String
  userId : String
  userDisplayName : String
  userEmail : String
  likes : List String
  comments : List String
  createdAt : CreatedAtValue
deriving DecidableEq, Repr

/-- Result of `doc.data()` for a document of the `posts` collection: the fields
the component reads, each possibly missing. `createdAt` is in milliseconds.
`id` is a stored field named `id`, which records written by this component do
not have. -/
structure DocData where
  id : Option String
  dishName : Option String
  description : Option String
  cookTime : Option Int
  photoURL : Option String
  userDisplayName : Option String
  likes : Option (List String)
  createdAt : Option Int
deriving DecidableEq, Repr

/-- One element of `snapshot.docs`. -/
structure QueryDocumentSnapshot where
  id : String
  data : DocData
deriving DecidableEq, Repr

/-- Argument of the `onSnapshot` callback. -/
structure QuerySnapshot where
  docs : List QueryDocumentSnapshot
deriving DecidableEq, Repr

/-- Entry of the `posts` state cell: `{ id: doc.id, ...doc.data() }`. -/
structure Post where
  id : String
  dishName : Option String
  description : Option String
  cookTime : Option Int
  photoURL : Option String
  userDisplayName : Option String
  likes : Option (List String)
  createdAt : Option Int
deriving DecidableEq, Repr

/-- The `useState` cells of `App` (App.js 26-44). -/
structure AppState where
  user : Option User
  loading : Bool
  posts : List Post
  showAuth : Bool
  isLogin : Bool
  showNewPost : Bool
  email : String
  password : String
  displayName : String
  authError : String
  dishName : String
  description : String
  cookTime : String
  photo : Option File
  uploading : Bool
deriving DecidableEq, Repr

/-- Initial values of the state cells (App.js 26-44). -/
def AppState.init : AppState :=
  { user := none, loading := true, posts := [], showAuth := false, isLogin := true,
    showNewPost := false, email := "", password := "", displayName := "", authError := "",
    dishName := "", description := "", cookTime := "", photo := none, uploading := false }

/-- Atomic field operators of the document store used on `likes`. -/
inductive LikesOp where
  | arrayUnion (uid : String)
  | arrayRemove (uid : String)
deriving DecidableEq, Repr

/-- Document reference returned by `doc(db, ...)`: the segments of the document
path, collection ids and document ids alternating. -/
abbrev DocumentReference := List String

/-- Call of a state setter. -/
inductive Write where
  | setUser (v : Option User)
  | setLoading (v : Bool)
  | setPosts (v : List Post)
  | setShowAuth (v : Bool)
  | setEmail (v : String)
  | setPassword (v : String)
  | setDisplayName (v : String)
  | setAuthError (v : String)
  | setDishName (v : String)
  | setDescription (v : String)
  | setCookTime (v : String)
  | setPhoto (v : Option File)
  | setShowNewPost (v : Bool)
  | setUploading (v : Bool)
deriving DecidableEq, Repr

/-- Observable step of a handler, in program order. `unhandledRejection` is the
end of a handler whose promise rejects with an exception thrown outside its
`try` block. -/
inductive Step where
  | preventDefault
  | write (w : Write)
  | createUserWithEmailAndPassword (email password : String)
  | updateProfile (uid displayName : String)
  | signInWithEmailAndPassword (email password : String)
  | signOut
  | uploadBytes (path : String) (file : File)
  | getDownloadURL (path : String)
  | addDoc (coll : String) (record : PostRecord)
  | updateDoc (ref : DocumentReference) (op : LikesOp)
  | consoleError (label : String)
  | alert (msg : String)
  | unhandledRejection
deriving DecidableEq, Repr

/-- Answers of the SDK and of the external services during one handler run. An
error carries the `message` of the exception or rejected promise. `now` is
`Date.now()` in milliseconds; `doc path segment` is the synchronous SDK call
`doc(db, path, segment)`, which either returns a document reference or throws
(`none`). -/
structure Backend where
  now : Nat
  doc : String → String → Option DocumentReference
  createUserWithEmailAndPassword : String → String → Except String User
  updateProfile : User → String → Except String Unit
  signInWithEmailAndPassword : String → String → Except String User
  signOut : Except String Unit
  uploadBytes : String → File → Except String Unit
  getDownloadURL : String → Except String String
  addDoc : String → PostRecord → Except String String
  updateDoc : DocumentReference → LikesOp → Except String Unit

/-! ## State after a trace -/

/-- Effect of one setter call on the state cells. -/
def applyWrite (s : AppState) : Write → AppState
  | .setUser v => { s with user := v }
  | .setLoading v => { s with loading := v }
  | .setPosts v => { s with posts := v }
  | .setShowAuth v => { s with showAuth := v }
  | .setEmail v => { s with email := v }
  | .setPassword v => { s with password := v }
  | .setDisplayName v => { s with displayName := v }
  | .setAuthError v => { s with authError := v }
  | .setDishName v => { s with dishName := v }
  | .setDescription v => { s with description := v }
  | .setCookTime v => { s with cookTime := v }
  | .setPhoto v => { s with photo := v }
  | .setShowNewPost v => { s with showNewPost := v }
  | .setUploading v => { s with uploading := v }

/-- Effect of one step on the state cells: only setter calls change them. -/
def applyStep (s : AppState) : Step → AppState
  | .write w => applyWrite s w
  | _ => s

/-- State cells after all the steps of a trace. -/
def stateAfter (s : AppState) (tr : List Step) : AppState :=
  tr.foldl applyStep s

/-- Store mutations attempted by a trace: uploads to the object store, inserts
and updates in the document store. -/
def Step.isStoreMutation : Step → Bool
  | .uploadBytes _ _ => true
  | .addDoc _ _ => true
  | .updateDoc _ _ => true
  | _ => false

/-- Inserts issued by a trace. -/
def Step.isAddDoc : Step → Bool
  | .addDoc _ _ => true
  | _ => false

/-! ## Subscriptions (App.js 47-66) -/

/-- Callback of `onAuthStateChanged` (App.js 48-51). -/
def onAuthStateChanged (u : Option User) : List Step :=
  [.write (.setUser u), .write (.setLoading false)]

/-- Mapping `doc => ({ id: doc.id, ...doc.data() })` (App.js 59-62): the spread
comes after `id`, so a stored field named `id` takes precedence. -/
def postOfDoc (d : QueryDocumentSnapshot) : Post :=
  { id := d.data.id.getD d.id
    dishName := d.data.dishName
    description := d.data.description
    cookTime := d.data.cookTime
    photoURL := d.data.photoURL
    userDisplayName := d.data.userDisplayName
    likes := d.data.likes
    createdAt := d.data.createdAt }

/-- Callback of `onSnapshot` on the posts query (App.js 58-64). -/
def onSnapshot (snapshot : QuerySnapshot) : List Step :=
  let postsData := snapshot.docs.map postOfDoc
  [.write (.setPosts postsData)]

/-- What a post card of the feed shows of a post (App.js 353-393): its React
key, whether the like button is in the liked state, and the timestamp handed to
`formatTime`. -/
structure PostCard where
  key : String
  userLiked : Bool
  createdAt : Option Int
deriving DecidableEq, Repr

/-- The feed render `posts.map((post) => ...)` (App.js 353-394): one card per
post, in the order of `posts`. `post.likes?.includes(user?.uid)` is falsy when
either `likes` or `user` is missing. -/
def feedCards (s : AppState) : List PostCard :=
  s.posts.map fun post =>
    { key := post.id
      userLiked :=
        match post.likes, s.user with
        | some l, some user => l.contains user.uid
        | _, _ => false
      createdAt := post.createdAt }

/-- Document of the `posts` collection as the store holds it: its id, its
server-assigned creation time in milliseconds, and its other fields. -/
structure StoredPost where
  id : String
  createdAt : Int
  fields : DocData
deriving DecidableEq, Repr

/-- Direction argument of `orderBy`. -/
inductive Direction where
  | asc
  | desc
deriving DecidableEq, Repr

/-- Order of two stored posts in a result ordered by `createdAt` in the given
direction: `a` may come before `b`. -/
def queryOrder (direction : Direction) (a b : StoredPost) : Prop :=
  match direction with
  | .asc => a.createdAt ≤ b.createdAt
  | .desc => b.createdAt ≤ a.createdAt

instance queryOrderDecidable (direction : Direction) : DecidableRel (queryOrder direction) :=
  fun a b =>
    match direction with
    | .asc => inferInstanceAs (Decidable (a.createdAt ≤ b.createdAt))
    | .desc => inferInstanceAs (Decidable (b.createdAt ≤ a.createdAt))

/-- Snapshot document delivered for a stored post: `data()` holds the stored
fields and the creation time. -/
def snapshotDoc (d : StoredPost) : QueryDocumentSnapshot :=
  { id := d.id, data := { d.fields with createdAt := some d.createdAt } }

/-- Modelled from the spec: the live query of the document store, which is not
part of this repository, on a collection ordered by `createdAt` in the given
direction. It delivers the full result set, every document of the collection
once, in that order, equal creation times keeping their store order. -/
def liveQuery (direction : Direction) (collection : List StoredPost) : QuerySnapshot :=
  { docs := (collection.insertionSort (queryOrder direction)).map snapshotDoc }

/-- The query of the posts subscription,
`query(collection(db, 'posts'), orderBy('createdAt', 'desc'))` (App.js 57). -/
def postsQuery (collection : List StoredPost) : QuerySnapshot :=
  liveQuery .desc collection

/-- States of the component after each notification of a sequence of feed
snapshots, starting from `s`. -/
def feedStates (s : AppState) : List QuerySnapshot → List AppState
  | [] => []
  | snap :: rest =>
    let s1 := stateAfter s (onSnapshot snap)
    s1 :: feedStates s1 rest

/-! ## Auth handlers (App.js 69-103) -/

/-- The handler `handleSignUp` (App.js 69-82). -/
def handleSignUp (b : Backend) (s : AppState) : List Step :=
  [.preventDefault, .write (.setAuthError ""),
   .createUserWithEmailAndPassword s.email s.password] ++
  match b.createUserWithEmailAndPassword s.email s.password with
  | .error message => [.write (.setAuthError message)]
  | .ok credUser =>
    [.updateProfile credUser.uid s.displayName] ++
    match b.updateProfile credUser s.displayName with
    | .error message => [.write (.setAuthError message)]
    | .ok _ =>
      [.write (.setShowAuth false), .write (.setEmail ""), .write (.setPassword ""),
       .write (.setDisplayName "")]

/-- The handler `handleLogin` (App.js 84-95). -/
def handleLogin (b : Backend) (s : AppState) : List Step :=
  [.preventDefault, .write (.setAuthError ""),
   .signInWithEmailAndPassword s.email s.password] ++
  match b.signInWithEmailAndPassword s.email s.password with
  | .error message => [.write (.setAuthError message)]
  | .ok _ => [.write (.setShowAuth false), .write (.setEmail ""), .write (.setPassword "")]

/-- The handler `handleLogout` (App.js 97-103). -/
def handleLogout (b : Backend) (_s : AppState) : List Step :=
  [.signOut] ++
  match b.signOut with
  | .error _ => [.consoleError "Error signing out:"]
  | .ok _ => []

/-! ## `parseInt` (ECMAScript builtin called at App.js 124) -/

/-- Code points of the white space and line terminators that `parseInt` skips at
the start of its input. -/
def isStrWhiteSpaceChar (c : Char) : Bool :=
  c.toNat ∈ [0x09, 0x0A, 0x0B, 0x0C, 0x0D, 0x20, 0xA0, 0x1680, 0x2000, 0x2001, 0x2002,
    0x2003, 0x2004, 0x2005, 0x2006, 0x2007, 0x2008, 0x2009, 0x200A, 0x2028, 0x2029,
    0x202F, 0x205F, 0x3000, 0xFEFF]

/-- Value of a character as a digit in radix at most 36. -/
def digitValue (c : Char) : Option Nat :=
  if 48 ≤ c.toNat ∧ c.toNat ≤ 57 then some (c.toNat - 48)
  else if 97 ≤ c.toNat ∧ c.toNat ≤ 122 then some (c.toNat - 87)
  else if 65 ≤ c.toNat ∧ c.toNat ≤ 90 then some (c.toNat - 55)
  else none

/-- Value of a character as a digit of radix `R`, if it is one. -/
def radixDigit (R : Nat) (c : Char) : Option Nat :=
  match digitValue c with
  | some d => if d < R then some d else none
  | none => none

/-- Values of the longest run of radix-`R` digits at the start of the input. -/
def takeDigits (R : Nat) : List Char → List Nat
  | [] => []
  | c :: cs =>
    match radixDigit R c with
    | some d => d :: takeDigits R cs
    | none => []

/-- Sign step of `parseInt`: a leading `-` makes the sign negative, and a
leading `-` or `+` is removed. -/
def readSign (S : List Char) : Int × List Char :=
  match S with
  | '-' :: rest => (-1, rest)
  | '+' :: rest => (1, rest)
  | _ => (1, S)

/-- Radix step of `parseInt` called without a radix: radix 16 after a leading
`0x` or `0X`, which is removed, and radix 10 otherwise. -/
def readRadix (S : List Char) : Nat × List Char :=
  match S with
  | '0' :: 'x' :: rest => (16, rest)
  | '0' :: 'X' :: rest => (16, rest)
  | _ => (10, S)

/-- The builtin `parseInt(string)` with no radix argument: skip leading white
space, read an optional sign, switch to radix 16 after `0x` or `0X`, read the
longest run of digits, and return NaN (`none`) when that run is empty. The
result is the mathematical integer read, which is the Number returned by the
builtin whenever its absolute value is at most 2^53. -/
def parseInt (string : String) : Option Int :=
  let S := string.toList.dropWhile isStrWhiteSpaceChar
  let signed := readSign S
  let radixed := readRadix signed.2
  let Z := takeDigits radixed.1 radixed.2
  if Z.isEmpty then none
  else some (signed.1 * ((Z.foldl (fun acc d => acc * radixed.1 + d) 0 : Nat) : Int))

/-! ## Post creation (App.js 106-146) -/

/-- The `catch` block of `handleCreatePost` (App.js 141-145). -/
def createPostCatch : List Step :=
  [.consoleError "Error creating post:", .write (.setUploading false),
   .alert "Error creating post. Please try again."]

/-- The expression `user.displayName || 'Anonymous'` (App.js 127): null and the
empty string are falsy. -/
def displayNameOrAnonymous (displayName : Option String) : String :=
  match displayName with
  | some n => if n = "" then "Anonymous" else n
  | none => "Anonymous"

/-- The template literal of App.js 115: `posts/`, the uid, `/`, `Date.now()`,
`_`, the file name. -/
def storagePath (user : User) (now : Nat) (photo : File) : String :=
  "posts/" ++ user.uid ++ "/" ++ toString now ++ "_" ++ photo.name

/-- The object literal of App.js 121-132, for a non-null `user`. -/
def createPostRecord (s : AppState) (user : User) (photoURL : String) : PostRecord :=
  { dishName := s.dishName
    description := s.description
    cookTime := parseInt s.cookTime
    photoURL := photoURL
    userId := user.uid
    userDisplayName := displayNameOrAnonymous user.displayName
    userEmail := user.email
    likes := []
    comments := []
    createdAt := .serverTimestamp }

/-- Second half of the `try` block of `handleCreatePost` (App.js 120-140), with
`photoURL` already computed. Reading `user.uid` of a null `user` throws while
the record is being built, before `addDoc` is called. -/
def createPostInsert (b : Backend) (s : AppState) (photoURL : String) : List Step :=
  match s.user with
  | none => createPostCatch
  | some user =>
    let record := createPostRecord s user photoURL
    [.addDoc "posts" record] ++
    match b.addDoc "posts" record with
    | .error _ => createPostCatch
    | .ok _ =>
      [.write (.setDishName ""), .write (.setDescription ""), .write (.setCookTime ""),
       .write (.setPhoto none), .write (.setShowNewPost false), .write (.setUploading false)]

/-- The handler `handleCreatePost` (App.js 106-146). With a photo attached and a
null `user`, building the storage path throws before any upload. -/
def handleCreatePost (b : Backend) (s : AppState) : List Step :=
  [.preventDefault, .write (.setUploading true)] ++
  match s.photo with
  | none => createPostInsert b s ""
  | some photo =>
    match s.user with
    | none => createPostCatch
    | some user =>
      let path := storagePath user b.now photo
      [.uploadBytes path photo] ++
      match b.uploadBytes path photo with
      | .error _ => createPostCatch
      | .ok _ =>
        [.getDownloadURL path] ++
        match b.getDownloadURL path with
        | .error _ => createPostCatch
        | .ok photoURL => createPostInsert b s photoURL

/-- Submission of the new-post form, the only binding of `handleCreatePost`: the
form, with `onSubmit={handleCreatePost}`, is rendered only under
`showNewPost && user` (App.js 292-297), so without it no submission occurs. -/
def submitNewPostForm (b : Backend) (s : AppState) : List Step :=
  if s.showNewPost && s.user.isSome then handleCreatePost b s else []

/-! ## Document references (SDK function `doc`, called at App.js 151) -/

/-- Whether a path argument contains `//`. -/
def hasDoubleSlash : List Char → Bool
  | a :: b :: cs => (a == '/' && b == '/') || hasDoubleSlash (b :: cs)
  | _ => false

/-- The pieces of a path argument between its `/` characters, as `split` gives
them: empty pieces included. -/
def pathPieces : List Char → List (List Char)
  | [] => [[]]
  | c :: cs =>
    if c = '/' then [] :: pathPieces cs
    else
      match pathPieces cs with
      | piece :: rest => (c :: piece) :: rest
      | [] => [[c]]

/-- Segments of a path argument: its non-empty pieces. -/
def pathSegments (path : String) : List String :=
  ((pathPieces path.toList).filter (fun piece => !piece.isEmpty)).map String.mk

/-- The function `doc(db, path, segment)` of the Firestore SDK, which is not
part of this repository, as the sample backends answer it: it throws on an empty
`path`, on an argument containing `//`, and when the segments of both arguments
together are odd in number (a document path alternates collection and document
ids), which is `none` here; otherwise it returns the reference made of those
segments. -/
def firestoreDoc (path segment : String) : Option DocumentReference :=
  if path = "" then none
  else if hasDoubleSlash path.toList || hasDoubleSlash segment.toList then none
  else
    let segments := pathSegments path ++ pathSegments segment
    if segments.length % 2 = 0 then some segments else none

/-! ## Like toggle (App.js 148-167) -/

/-- The expression `likes?.includes(uid)`: undefined, hence falsy, when `likes`
is missing. -/
def likesIncludes (likes : Option (List String)) (uid : String) : Bool :=
  match likes with
  | some l => l.contains uid
  | none => false

/-- The handler `handleLike` (App.js 148-167). The guard on `user` comes first;
`doc(db, 'posts', postId)` (App.js 151) is called before the `try` block, so
an exception it throws is neither caught nor logged and no update is issued. -/
def handleLike (b : Backend) (s : AppState) (postId : String)
    (likes : Option (List String)) : List Step :=
  match s.user with
  | none => []
  | some user =>
    match b.doc "posts" postId with
    | none => [.unhandledRejection]
    | some postRef =>
      let userLiked := likesIncludes likes user.uid
      if userLiked then
        [.updateDoc postRef (.arrayRemove user.uid)] ++
        match b.updateDoc postRef (.arrayRemove user.uid) with
        | .error _ => [.consoleError "Error updating like:"]
        | .ok _ => []
      else
        [.updateDoc postRef (.arrayUnion user.uid)] ++
        match b.updateDoc postRef (.arrayUnion user.uid) with
        | .error _ => [.consoleError "Error updating like:"]
        | .ok _ => []

/-- Modelled from the spec: the document store's atomic set-add and set-remove
field operators, which are part of the external store and not of this
repository. Set-add appends the id unless it is already present; set-remove
deletes every occurrence of the id; on a missing field set-add creates a
one-element array and set-remove an empty one. -/
def applyLikesOp (likes : Option (List String)) : LikesOp → Option (List String)
  | .arrayUnion uid =>
    match likes with
    | some l => if l.contains uid then some l else some (l ++ [uid])
    | none => some [uid]
  | .arrayRemove uid =>
    match likes with
    | some l => some (l.filter (fun x => x != uid))
    | none => some []

/-- The `likes` field of the document `ref` after the store has applied the
updates of a trace that address `ref` and that it accepted. -/
def likesAfter (b : Backend) (ref : DocumentReference) (likes : Option (List String))
    (tr : List Step) : Option (List String) :=
  tr.foldl
    (fun cur st =>
      match st with
      | .updateDoc r op =>
        if r = ref then
          match b.updateDoc r op with
          | .ok _ => applyLikesOp cur op
          | .error _ => cur
        else cur
      | _ => cur)
    likes

/-- User ids in a `likes` field, a missing field holding none. -/
def likedBy (likes : Option (List String)) : List String :=
  likes.getD []

/-! ## Time display (App.js 174-188) -/

/-- The function `formatTime` (App.js 174-188). `now` is the value of
`new Date()` and `timestamp` that of `timestamp.toDate()`, both in milliseconds;
`none` is a missing timestamp. Division by a positive literal rounds down, as
`Math.floor` does. -/
def formatTime (now : Int) (timestamp : Option Int) : String :=
  match timestamp with
  | none => "Just now"
  | some date =>
    let diffMs := now - date
    let diffMins := diffMs / 60000
    let diffHours := diffMs / 3600000
    let diffDays := diffMs / 86400000
    if diffMins < 1 then "Just now"
    else if diffMins < 60 then toString diffMins ++ " minutes ago"
    else if diffHours < 24 then toString diffHours ++ " hours ago"
    else if diffDays = 1 then "Yesterday"
    else toString diffDays ++ " days ago"

/-! ## Decimal numerals -/

/-- Characters that print a decimal digit. -/
def IsDecimalChar (c : Char) : Prop := ∃ d, d < 10 ∧ c = Nat.digitChar d

/-- Value of a run of decimal characters read from the left, starting from `acc`. -/
def decimalValue (acc : Nat) (l : List Char) : Nat :=
  (takeDigits 10 l).foldl (fun a d => a * 10 + d) acc


/-! ## Sample inputs -/

/-- Services that accept every call: sign-in and sign-up answer with a user
without display name, the object store answers with a URL built from the path. -/
def acceptingBackend : Backend :=
  { now := 1700000000000
    createUserWithEmailAndPassword := fun email _ => .ok { uid := "u1", displayName := none, email := email }
    updateProfile := fun _ _ => .ok ()
    signInWithEmailAndPassword := fun email _ => .ok { uid := "u1", displayName := some "Ana", email := email }
    signOut := .ok ()
    uploadBytes := fun _ _ => .ok ()
    getDownloadURL := fun path => .ok ("https://storage.example/" ++ path)
    addDoc := fun _ _ => .ok "p1"
    updateDoc := fun _ _ => .ok ()
    doc := firestoreDoc }

/-- Services that reject every call with the given message. -/
def rejectingBackend (message : String) : Backend :=
  { now := 1700000000000
    createUserWithEmailAndPassword := fun _ _ => .error message
    updateProfile := fun _ _ => .error message
    signInWithEmailAndPassword := fun _ _ => .error message
    signOut := .error message
    uploadBytes := fun _ _ => .error message
    getDownloadURL := fun _ => .error message
    addDoc := fun _ _ => .error message
    updateDoc := fun _ _ => .error message
    doc := firestoreDoc }

/-- Auth form filled in on the sign-up side. -/
def filledAuthForm : AppState :=
  { AppState.init with
    loading := false, showAuth := true, email := "ana@x.com", password := "wrongpass",
    displayName := "Ana" }

/-- Signed-in user "Ana". -/
def ana : User := { uid := "u1", displayName := some "Ana", email := "ana@x.com" }

/-- Signed-in user whose profile has no display name. -/
def unnamedUser : User := { uid := "u3", displayName := none, email := "chef@x.com" }

/-- Photo picked in the new-post form. -/
def pizzaPhoto : File := { name := "pizza.png" }

/-- New-post form of the Pizza scenario, filled in by `ana`, photo attached. -/
def pizzaForm : AppState :=
  { AppState.init with
    user := some ana, loading := false, showNewPost := true, dishName := "Pizza",
    description := "Crispy crust", cookTime := "45", photo := some pizzaPhoto }

/-- Signed-out state reached when the session ends while a post is being
uploaded: no identity, `uploading` still true. -/
def signedOutWhileUploading : AppState :=
  { AppState.init with loading := false, uploading := true }

/-- Likes array of post `p1` in the like scenario: liked by `u1` only. -/
def likedByU1 : Option (List String) := some ["u1"]

/-- State of the like scenario: user `u2` signed in. -/
def u2SignedIn : AppState :=
  { AppState.init with
    user := some { uid := "u2", displayName := some "Bo", email := "bo@x.com" },
    loading := false }

/-- Stored post with the given id and creation time. -/
def samplePost (id : String) (createdAt : Int) : StoredPost :=
  { id := id
    createdAt := createdAt
    fields :=
      { id := none, dishName := some "Pizza", description := some "Crispy crust",
        cookTime := some 45, photoURL := some "", userDisplayName := some "Ana",
        likes := some [], createdAt := none } }

/-- Two successive contents of the `posts` collection, in insertion order: one
post, then a second, newer one. -/
def sampleStores : List (List StoredPost) :=
  [[samplePost "p1" 1000], [samplePost "p1" 1000, samplePost "p2" 2000]]

/-! # Theorems -/

/-! ## `parseInt` on decimal numerals -/


/-- The ten decimal digit characters are radix-10 digits of their own value, are
not white space, and are none of the sign and radix markers. -/
theorem digitChar_facts : ∀ d, d < 10 →
    radixDigit 10 (Nat.digitChar d) = some d ∧ isStrWhiteSpaceChar (Nat.digitChar d) = false ∧
    Nat.digitChar d ≠ '-' ∧ Nat.digitChar d ≠ '+' ∧ Nat.digitChar d ≠ 'x' ∧
    Nat.digitChar d ≠ 'X' := by
  decide

/-- A run of decimal characters is read in full by `takeDigits 10`. -/
theorem takeDigits_length_of_decimal (l : List Char) (h : ∀ c ∈ l, IsDecimalChar c) :
    (takeDigits 10 l).length = l.length := by
  induction l with
  | nil => rfl
  | cons c cs ih =>
    obtain ⟨d, hd, rfl⟩ := h c (List.mem_cons_self _ _)
    simp [takeDigits, (digitChar_facts d hd).1, ih (fun c hc => h c (List.mem_cons_of_mem _ hc))]

/-- Reading a run of decimal characters after `acc` shifts `acc` by the length of
the run. -/
theorem decimalValue_acc (l : List Char) (h : ∀ c ∈ l, IsDecimalChar c) (acc : Nat) :
    decimalValue acc l = acc * 10 ^ l.length + decimalValue 0 l := by
  induction l generalizing acc with
  | nil => simp [decimalValue, takeDigits]
  | cons c cs ih =>
    obtain ⟨d, hd, rfl⟩ := h c (List.mem_cons_self _ _)
    have hcs : ∀ c ∈ cs, IsDecimalChar c := fun c hc => h c (List.mem_cons_of_mem _ hc)
    have e1 : ∀ a, decimalValue a (Nat.digitChar d :: cs) = decimalValue (a * 10 + d) cs := by
      intro a
      simp [decimalValue, takeDigits, (digitChar_facts d hd).1]
    rw [e1, e1, ih hcs (acc * 10 + d), ih hcs (0 * 10 + d)]
    simp only [List.length_cons, pow_succ]
    ring

/-- With enough fuel, the decimal printer puts in front of `ds` a non-empty run
of decimal characters whose value is `n`. -/
theorem toDigitsCore_decimal (fuel : Nat) : ∀ (n : Nat) (ds : List Char), n < fuel →
    (∀ c ∈ ds, IsDecimalChar c) →
    (∀ c ∈ Nat.toDigitsCore 10 fuel n ds, IsDecimalChar c) ∧
    Nat.toDigitsCore 10 fuel n ds ≠ [] ∧
    decimalValue 0 (Nat.toDigitsCore 10 fuel n ds) = n * 10 ^ ds.length + decimalValue 0 ds := by
  induction fuel with
  | zero => intro n ds h; omega
  | succ fuel ih =>
    intro n ds hn hds
    have hdig : IsDecimalChar (Nat.digitChar (n % 10)) := ⟨n % 10, Nat.mod_lt _ (by decide), rfl⟩
    have hds2 : ∀ c ∈ Nat.digitChar (n % 10) :: ds, IsDecimalChar c := by
      intro c hc
      rcases List.mem_cons.mp hc with rfl | hc
      · exact hdig
      · exact hds c hc
    have hval : decimalValue 0 (Nat.digitChar (n % 10) :: ds)
        = (n % 10) * 10 ^ ds.length + decimalValue 0 ds := by
      have := decimalValue_acc ds hds (0 * 10 + n % 10)
      simp only [decimalValue, takeDigits, (digitChar_facts (n % 10) (Nat.mod_lt _ (by decide))).1,
        List.foldl_cons] at this ⊢
      simpa using this
    by_cases h0 : n / 10 = 0
    · simp only [Nat.toDigitsCore, h0, if_true]
      refine ⟨hds2, by simp, ?_⟩
      rw [hval]
      have : n % 10 = n := Nat.mod_eq_of_lt (by omega)
      rw [this]
    · simp only [Nat.toDigitsCore, h0, if_false]
      obtain ⟨a, b2, c⟩ := ih (n / 10) (Nat.digitChar (n % 10) :: ds) (by omega) hds2
      refine ⟨a, b2, ?_⟩
      rw [c, hval]
      simp only [List.length_cons, pow_succ]
      have := Nat.div_add_mod n 10
      calc n / 10 * (10 ^ ds.length * 10) + (n % 10 * 10 ^ ds.length + decimalValue 0 ds)
          = (10 * (n / 10) + n % 10) * 10 ^ ds.length + decimalValue 0 ds := by ring
        _ = n * 10 ^ ds.length + decimalValue 0 ds := by rw [this]

/-- The sign step leaves an input that starts with a decimal digit alone. -/
theorem readSign_decimal (d : Nat) (hd : d < 10) (cs : List Char) :
    readSign (Nat.digitChar d :: cs) = (1, Nat.digitChar d :: cs) := by
  obtain ⟨_, _, f3, f4, _, _⟩ := digitChar_facts d hd
  unfold readSign
  split
  · rename_i heq
    exact absurd (List.cons.inj heq).1 f3
  · rename_i heq
    exact absurd (List.cons.inj heq).1 f4
  · rfl

/-- The radix step keeps radix 10 on a run of decimal characters. -/
theorem readRadix_decimal (l : List Char) (h : ∀ c ∈ l, IsDecimalChar c) :
    readRadix l = (10, l) := by
  unfold readRadix
  split
  · obtain ⟨d, hd, hx⟩ := h 'x' (by simp)
    exact absurd hx.symm (digitChar_facts d hd).2.2.2.2.1
  · obtain ⟨d, hd, hx⟩ := h 'X' (by simp)
    exact absurd hx.symm (digitChar_facts d hd).2.2.2.2.2
  · rfl

/-- On a non-empty run of decimal characters `parseInt` returns its value. -/
theorem parseInt_decimal_chars (l : List Char) (h : ∀ c ∈ l, IsDecimalChar c) (hne : l ≠ []) :
    parseInt (String.mk l) = some ((decimalValue 0 l : Nat) : Int) := by
  cases l with
  | nil => exact absurd rfl hne
  | cons c cs =>
    obtain ⟨d, hd, rfl⟩ := h c (List.mem_cons_self _ _)
    obtain ⟨f1, f2, _⟩ := digitChar_facts d hd
    have hdrop : List.dropWhile isStrWhiteSpaceChar (Nat.digitChar d :: cs)
        = Nat.digitChar d :: cs := by
      simp [List.dropWhile, f2]
    simp only [parseInt, String.toList, hdrop, readSign_decimal d hd, readRadix_decimal _ h]
    simp [takeDigits, f1, decimalValue]

/-- Reading back the decimal numeral of `n` with `parseInt` gives `n`. -/
theorem parseInt_toString (n : Nat) : parseInt (toString n) = some (n : Int) := by
  obtain ⟨a, b, c⟩ := toDigitsCore_decimal (n + 1) n [] (by omega) (by simp)
  have : toString n = String.mk (Nat.toDigits 10 n) := rfl
  rw [this, Nat.toDigits, parseInt_decimal_chars _ a b, c]
  simp [decimalValue, takeDigits]

/-! ## Time display -/

/-- C10: `formatTime` is a function of the elapsed milliseconds `e = now - t`
alone: a missing timestamp and every `e < 60000` (negative ones included) give
"Just now", `60000 <= e < 3600000` gives the whole minutes, `3600000 <= e <
86400000` the whole hours, `86400000 <= e < 172800000` gives "Yesterday", and
every larger `e` gives the whole days, which are then at least 2. The five
ranges are consecutive, so exactly one applies. -/
theorem formatTime_by_elapsed (now : Int) :
    formatTime now none = "Just now" ∧
    ∀ t : Int,
      formatTime now (some t) =
        (if now - t < 60000 then "Just now"
         else if now - t < 3600000 then toString ((now - t) / 60000) ++ " minutes ago"
         else if now - t < 86400000 then toString ((now - t) / 3600000) ++ " hours ago"
         else if now - t < 172800000 then "Yesterday"
         else toString ((now - t) / 86400000) ++ " days ago") ∧
      (now - t < 172800000 ∨ 2 ≤ (now - t) / 86400000) ∧
      ∀ now2 t2 : Int, now2 - t2 = now - t → formatTime now2 (some t2) = formatTime now (some t) := by
  refine ⟨rfl, fun t => ⟨?_, by omega, ?_⟩⟩
  · simp only [formatTime]
    by_cases h1 : now - t < 60000
    · have : (now - t) / 60000 < 1 := by omega
      simp [h1, this]
    · have a1 : ¬ (now - t) / 60000 < 1 := by omega
      by_cases h2 : now - t < 3600000
      · have : (now - t) / 60000 < 60 := by omega
        simp [h1, a1, h2, this]
      · have a2 : ¬ (now - t) / 60000 < 60 := by omega
        by_cases h3 : now - t < 86400000
        · have : (now - t) / 3600000 < 24 := by omega
          simp [h1, a1, h2, a2, h3, this]
        · have a3 : ¬ (now - t) / 3600000 < 24 := by omega
          by_cases h4 : now - t < 172800000
          · have : (now - t) / 86400000 = 1 := by omega
            simp [h1, a1, h2, a2, h3, a3, h4, this]
          · have : ¬ (now - t) / 86400000 = 1 := by omega
            simp [h1, a1, h2, a2, h3, a3, h4, this]
  · intro now2 t2 h
    simp only [formatTime, h]

/-! ## Registration and login -/

/-- C9: when the provider rejects `signInWithEmailAndPassword` (login), or
`createUserWithEmailAndPassword` or `updateProfile` (register), with message
`msg`, the handler ends with `authError = msg` and every other state cell as it
was (so `showAuth`, `email`, `password`, `displayName` and `user` are untouched),
and its trace contains no call of `setUser`. -/
theorem auth_failure_keeps_form (b : Backend) (s : AppState) (msg : String) :
    (b.signInWithEmailAndPassword s.email s.password = .error msg →
      stateAfter s (handleLogin b s) = { s with authError := msg } ∧
      ∀ v, Step.write (.setUser v) ∉ handleLogin b s) ∧
    (b.createUserWithEmailAndPassword s.email s.password = .error msg →
      stateAfter s (handleSignUp b s) = { s with authError := msg } ∧
      ∀ v, Step.write (.setUser v) ∉ handleSignUp b s) ∧
    (∀ cred, b.createUserWithEmailAndPassword s.email s.password = .ok cred →
      b.updateProfile cred s.displayName = .error msg →
      stateAfter s (handleSignUp b s) = { s with authError := msg } ∧
      ∀ v, Step.write (.setUser v) ∉ handleSignUp b s) := by
  refine ⟨fun h => ?_, fun h => ?_, fun cred h1 h2 => ?_⟩
  · simp [handleLogin, h, stateAfter, applyStep, applyWrite]
  · simp [handleSignUp, h, stateAfter, applyStep, applyWrite]
  · simp [handleSignUp, h1, h2, stateAfter, applyStep, applyWrite]

/-- Instance of C9: logging in as ana@x.com with a wrong password, the provider
answering "auth/wrong-password", leaves the auth form open with that message. -/
theorem auth_failure_keeps_form_witness :
    stateAfter filledAuthForm (handleLogin (rejectingBackend "auth/wrong-password") filledAuthForm)
        = { filledAuthForm with authError := "auth/wrong-password" } ∧
      ∀ v, Step.write (.setUser v) ∉
        handleLogin (rejectingBackend "auth/wrong-password") filledAuthForm :=
  (auth_failure_keeps_form (rejectingBackend "auth/wrong-password") filledAuthForm
    "auth/wrong-password").1 rfl

/-- C8, as the code has it: when the provider calls succeed, both handlers end
with `showAuth = false`, `authError`, `email` and `password` empty, and no call
of `setUser` in the trace; `handleSignUp` also empties `displayName`, while
`handleLogin` leaves `displayName` as it was. All other cells are unchanged. -/
theorem auth_success_closes_form (b : Backend) (s : AppState) :
    (∀ cred, b.signInWithEmailAndPassword s.email s.password = .ok cred →
      stateAfter s (handleLogin b s) =
        { s with showAuth := false, email := "", password := "", authError := "" } ∧
      ∀ v, Step.write (.setUser v) ∉ handleLogin b s) ∧
    (∀ cred, b.createUserWithEmailAndPassword s.email s.password = .ok cred →
      b.updateProfile cred s.displayName = .ok () →
      stateAfter s (handleSignUp b s) =
        { s with showAuth := false, email := "", password := "", displayName := "",
                 authError := "" } ∧
      ∀ v, Step.write (.setUser v) ∉ handleSignUp b s) := by
  refine ⟨fun cred h => ?_, fun cred h1 h2 => ?_⟩
  · simp [handleLogin, h, stateAfter, applyStep, applyWrite]
  · simp [handleSignUp, h1, h2, stateAfter, applyStep, applyWrite]

/-- Instance of C8: a successful sign-up from the filled auth form closes the
form and empties its three fields. -/
theorem auth_success_closes_form_witness :
    stateAfter filledAuthForm (handleSignUp acceptingBackend filledAuthForm)
        = { filledAuthForm with showAuth := false, email := "", password := "",
                                displayName := "", authError := "" } ∧
      ∀ v, Step.write (.setUser v) ∉ handleSignUp acceptingBackend filledAuthForm :=
  (auth_success_closes_form acceptingBackend filledAuthForm).2
    { uid := "u1", displayName := none, email := "ana@x.com" } rfl rfl

/-- C8 as stated fails for login: with "Ana" left in the display-name field, a
successful `handleLogin` closes the form but `displayName` is still "Ana". -/
theorem login_success_keeps_displayName :
    acceptingBackend.signInWithEmailAndPassword filledAuthForm.email filledAuthForm.password
        = .ok { uid := "u1", displayName := some "Ana", email := "ana@x.com" } ∧
      (stateAfter filledAuthForm (handleLogin acceptingBackend filledAuthForm)).showAuth = false ∧
      (stateAfter filledAuthForm (handleLogin acceptingBackend filledAuthForm)).displayName = "Ana" ∧
      (stateAfter filledAuthForm (handleLogin acceptingBackend filledAuthForm)).displayName ≠ "" := by
  refine ⟨rfl, rfl, rfl, ?_⟩
  decide

/-! ## Post creation -/

/-- C7: for a present identity, when the photo upload fails, or the download-URL
retrieval fails, or every insert the run issues is rejected, `handleCreatePost`
ends with every state cell as it was before the call and `uploading` false (so
`dishName`, `description`, `cookTime`, `photo` and `showNewPost` keep the form
populated), it shows the generic failure alert, it issues at most one insert,
and it issues no insert at all after a failed upload or URL retrieval. -/
theorem createPost_failure_keeps_form (b : Backend) (s : AppState) (u : User)
    (hu : s.user = some u)
    (hfail :
      (∃ f e, s.photo = some f ∧ b.uploadBytes (storagePath u b.now f) f = .error e) ∨
      (∃ f e, s.photo = some f ∧ b.getDownloadURL (storagePath u b.now f) = .error e) ∨
      (∀ r, Step.addDoc "posts" r ∈ handleCreatePost b s →
        ∃ e, b.addDoc "posts" r = .error e)) :
    stateAfter s (handleCreatePost b s) = { s with uploading := false } ∧
    Step.alert "Error creating post. Please try again." ∈ handleCreatePost b s ∧
    ((handleCreatePost b s).filter Step.isAddDoc).length ≤ 1 ∧
    (((∃ f e, s.photo = some f ∧ b.uploadBytes (storagePath u b.now f) f = .error e) ∨
      (∃ f e, s.photo = some f ∧ b.getDownloadURL (storagePath u b.now f) = .error e)) →
      (handleCreatePost b s).filter Step.isAddDoc = []) := by
  cases hp : s.photo with
  | none =>
    have hrec : ∀ r, Step.addDoc "posts" r ∈ handleCreatePost b s →
        ∃ e, b.addDoc "posts" r = .error e := by
      rcases hfail with ⟨f, e, h, _⟩ | ⟨f, e, h, _⟩ | h
      · simp [hp] at h
      · simp [hp] at h
      · exact h
    cases ha : b.addDoc "posts" (createPostRecord s u "") with
    | error e =>
      simp [handleCreatePost, createPostInsert, createPostCatch, hu, hp, ha, stateAfter,
        applyStep, applyWrite, Step.isAddDoc]
    | ok docId =>
      obtain ⟨e, he⟩ := hrec (createPostRecord s u "")
        (by simp [handleCreatePost, createPostInsert, hu, hp])
      simp [ha] at he
  | some f =>
    cases hup : b.uploadBytes (storagePath u b.now f) f with
    | error e =>
      simp [handleCreatePost, createPostCatch, hu, hp, hup, stateAfter, applyStep,
        applyWrite, Step.isAddDoc]
    | ok snapshot =>
      cases hurl : b.getDownloadURL (storagePath u b.now f) with
      | error e =>
        simp [handleCreatePost, createPostCatch, hu, hp, hup, hurl, stateAfter, applyStep,
          applyWrite, Step.isAddDoc]
      | ok photoURL =>
        have hrec : ∀ r, Step.addDoc "posts" r ∈ handleCreatePost b s →
            ∃ e, b.addDoc "posts" r = .error e := by
          rcases hfail with ⟨f2, e, h, h2⟩ | ⟨f2, e, h, h2⟩ | h
          · rw [hp] at h
            cases h
            simp [hup] at h2
          · rw [hp] at h
            cases h
            simp [hurl] at h2
          · exact h
        cases ha : b.addDoc "posts" (createPostRecord s u photoURL) with
        | error e =>
          simp [handleCreatePost, createPostInsert, createPostCatch, hu, hp, hup, hurl, ha,
            stateAfter, applyStep, applyWrite, Step.isAddDoc]
        | ok docId =>
          obtain ⟨e, he⟩ := hrec (createPostRecord s u photoURL)
            (by simp [handleCreatePost, createPostInsert, hu, hp, hup, hurl])
          simp [ha] at he

/-- Instance of C7: the Pizza form submitted while the services reject every
call. The upload fails, nothing is inserted, the form stays as filled in. -/
theorem createPost_failure_keeps_form_witness :
    stateAfter pizzaForm (handleCreatePost (rejectingBackend "storage/unauthorized") pizzaForm)
        = { pizzaForm with uploading := false } ∧
    Step.alert "Error creating post. Please try again." ∈
      handleCreatePost (rejectingBackend "storage/unauthorized") pizzaForm ∧
    ((handleCreatePost (rejectingBackend "storage/unauthorized") pizzaForm).filter
      Step.isAddDoc).length ≤ 1 :=
  have h := createPost_failure_keeps_form (rejectingBackend "storage/unauthorized") pizzaForm ana
    rfl (Or.inl ⟨pizzaPhoto, "storage/unauthorized", rfl, rfl⟩)
  ⟨h.1, h.2.1, h.2.2.1⟩

/-- C5, as the code has it: for a present identity `u`, when the photo (if one
is attached) is uploaded and its download URL `url` obtained (`url` is the empty
string when no photo is attached), `handleCreatePost` issues exactly one insert,
into `posts`, of a record with `userId = u.uid`, `userEmail = u.email`, no likes,
the form's `dishName` and `description`, `photoURL = url`, `createdAt` the
server-timestamp sentinel, and `userDisplayName` equal to the identity's
display name when that is a non-empty string and to "Anonymous" when it is
missing or empty. -/
theorem createPost_inserts_one_record (b : Backend) (s : AppState) (u : User) (url : String)
    (hu : s.user = some u)
    (hphoto : (s.photo = none ∧ url = "") ∨
      (∃ f, s.photo = some f ∧ b.uploadBytes (storagePath u b.now f) f = .ok () ∧
        b.getDownloadURL (storagePath u b.now f) = .ok url)) :
    ∃ r, (handleCreatePost b s).filter Step.isAddDoc = [.addDoc "posts" r] ∧
      r.userId = u.uid ∧ r.userEmail = u.email ∧
      r.userDisplayName =
        (match u.displayName with
         | some n => if n = "" then "Anonymous" else n
         | none => "Anonymous") ∧
      r.likes = [] ∧ r.dishName = s.dishName ∧ r.description = s.description ∧
      r.photoURL = url ∧ r.createdAt = .serverTimestamp := by
  refine ⟨createPostRecord s u url, ?_, rfl, rfl, rfl, rfl, rfl, rfl, rfl, rfl⟩
  rcases hphoto with ⟨hp, rfl⟩ | ⟨f, hp, hup, hurl⟩
  · cases ha : b.addDoc "posts" (createPostRecord s u "") <;>
      simp [handleCreatePost, createPostInsert, createPostCatch, hu, hp, ha, Step.isAddDoc]
  · cases ha : b.addDoc "posts" (createPostRecord s u url) <;>
      simp [handleCreatePost, createPostInsert, createPostCatch, hu, hp, hup, hurl, ha,
        Step.isAddDoc]

/-- Instance of C5: the Pizza form submitted by `ana` with every call accepted
inserts one record, authored by "Ana", with the URL the object store returned. -/
theorem createPost_inserts_one_record_witness :
    ∃ r, (handleCreatePost acceptingBackend pizzaForm).filter Step.isAddDoc
        = [.addDoc "posts" r] ∧
      r.userId = "u1" ∧ r.userEmail = "ana@x.com" ∧ r.userDisplayName = "Ana" ∧
      r.likes = [] ∧ r.dishName = "Pizza" ∧ r.description = "Crispy crust" ∧
      r.photoURL = "https://storage.example/posts/u1/1700000000000_pizza.png" ∧
      r.createdAt = .serverTimestamp :=
  createPost_inserts_one_record acceptingBackend pizzaForm ana
    "https://storage.example/posts/u1/1700000000000_pizza.png" rfl
    (Or.inr ⟨pizzaPhoto, rfl, rfl, rfl⟩)

/-- C5 as stated fails for an identity without display name: the record that
`handleCreatePost` inserts for `unnamedUser` carries "Anonymous" as author
name, which is not the identity's `displayName`. -/
theorem createPost_unnamed_user_is_anonymous :
    unnamedUser.displayName = none ∧
    ∃ r, (handleCreatePost acceptingBackend
          { pizzaForm with user := some unnamedUser, photo := none }).filter Step.isAddDoc
        = [.addDoc "posts" r] ∧
      r.userId = unnamedUser.uid ∧ r.userDisplayName = "Anonymous" ∧
      some r.userDisplayName ≠ unnamedUser.displayName := by
  refine ⟨rfl, createPostRecord { pizzaForm with user := some unnamedUser, photo := none }
    unnamedUser "", ?_, rfl, rfl, ?_⟩
  · simp [handleCreatePost, createPostInsert, acceptingBackend, pizzaForm, Step.isAddDoc]
  · simp [unnamedUser]

/-! ## Absent identity -/

/-- C3: with no identity, `handleLike` and `createPost` are no-ops. `handleLike`
returns at its guard: it performs no step and leaves the state as it was. The
new-post form, the only binding of `handleCreatePost`, is not rendered, so its
submission performs no step and leaves the state as it was. And
`handleCreatePost` itself, on any input without identity, attempts no store
mutation (no upload, no insert, no update) and, started with `uploading` false,
ends in the state it started from. -/
theorem absent_identity_no_op (b : Backend) (s : AppState) (postId : String)
    (likes : Option (List String)) (hu : s.user = none) :
    handleLike b s postId likes = [] ∧
    stateAfter s (handleLike b s postId likes) = s ∧
    submitNewPostForm b s = [] ∧
    stateAfter s (submitNewPostForm b s) = s ∧
    (handleCreatePost b s).filter Step.isStoreMutation = [] ∧
    (s.uploading = false → stateAfter s (handleCreatePost b s) = s) := by
  have hl : handleLike b s postId likes = [] := by simp [handleLike, hu]
  have hf : submitNewPostForm b s = [] := by simp [submitNewPostForm, hu]
  refine ⟨hl, by rw [hl]; rfl, hf, by rw [hf]; rfl, ?_, ?_⟩
  · cases hp : s.photo <;>
      simp [handleCreatePost, createPostInsert, createPostCatch, hu, hp, Step.isStoreMutation]
  · intro hup
    have hend : stateAfter s (handleCreatePost b s) = { s with uploading := false } := by
      cases hp : s.photo <;>
        simp [handleCreatePost, createPostInsert, createPostCatch, hu, hp, stateAfter, applyStep,
          applyWrite]
    rw [hend]
    cases s
    simp_all

/-- Instance of C3: in the initial, signed-out state a like and a submission of
the new-post form perform no step, and `handleCreatePost` ends in the initial
state without a store mutation. -/
theorem absent_identity_no_op_witness :
    handleLike acceptingBackend AppState.init "p1" likedByU1 = [] ∧
    submitNewPostForm acceptingBackend AppState.init = [] ∧
    (handleCreatePost acceptingBackend AppState.init).filter Step.isStoreMutation = [] ∧
    stateAfter AppState.init (handleCreatePost acceptingBackend AppState.init) = AppState.init :=
  have h := absent_identity_no_op acceptingBackend AppState.init "p1" likedByU1 rfl
  ⟨h.1, h.2.2.1, h.2.2.2.2.1, h.2.2.2.2.2 rfl⟩

/-! ## Document references -/

/-- A path argument without `/` has no `//`. -/
theorem hasDoubleSlash_of_no_slash (l : List Char) (h : '/' ∉ l) : hasDoubleSlash l = false := by
  induction l with
  | nil => rfl
  | cons a cs ih =>
    have ha : a ≠ '/' := fun e => h (e ▸ List.mem_cons_self _ _)
    have hcs : '/' ∉ cs := fun e => h (List.mem_cons_of_mem _ e)
    cases cs with
    | nil => rfl
    | cons c cs2 => simp [hasDoubleSlash, ha, ih hcs]

/-- A path argument without `/` is a single piece. -/
theorem pathPieces_of_no_slash (l : List Char) (h : '/' ∉ l) : pathPieces l = [l] := by
  induction l with
  | nil => rfl
  | cons a cs ih =>
    have ha : a ≠ '/' := fun e => h (e ▸ List.mem_cons_self _ _)
    have hcs : '/' ∉ cs := fun e => h (List.mem_cons_of_mem _ e)
    simp [pathPieces, ha, ih hcs]

/-- For a non-empty post id without `/`, which is what the store assigns,
`firestoreDoc` returns the reference of document `posts/id`. -/
theorem firestoreDoc_posts_plain_id (id : String) (hne : id ≠ "") (h : '/' ∉ id.toList) :
    firestoreDoc "posts" id = some ["posts", id] := by
  have hl : id.toList ≠ [] := by
    intro e
    apply hne
    cases id
    simp_all [String.toList]
  have hseg : pathSegments id = [id] := by
    simp only [pathSegments, pathPieces_of_no_slash _ h]
    have hmk : String.mk id.toList = id := by
      cases id
      rfl
    cases hid : id.toList with
    | nil => exact absurd hid hl
    | cons c cs =>
      rw [hid] at hmk
      simp [hmk]
  have hposts : pathSegments "posts" = ["posts"] := by decide
  have hd : hasDoubleSlash "posts".toList = false := by decide
  have hd2 : hasDoubleSlash id.toList = false := hasDoubleSlash_of_no_slash _ h
  have hne2 : ¬ ("posts" = "") := by decide
  simp only [firestoreDoc, if_neg hne2, hd, hd2, hposts, hseg]
  simp

/-! ## Like toggle -/

/-- C2, as the code has it: for a present identity `u` and a post id that
`doc(db, 'posts', postId)` accepts, returning the reference `ref`, `handleLike`
issues exactly one store mutation, an update of document `ref`: a set-add of
`u.uid` when `u.uid` is not in the likes array (a missing array included), after
which the ids are the old ones and `u.uid`; a set-remove of `u.uid` when it is
in the array, after which the ids are the old ones without `u.uid`. For a post
id that `doc` rejects, `handleLike` issues no store mutation. -/
theorem toggleLike_one_update (b : Backend) (s : AppState) (u : User) (postId : String)
    (likes : Option (List String)) (hu : s.user = some u) :
    (∀ ref, b.doc "posts" postId = some ref →
      (u.uid ∉ likedBy likes →
        (handleLike b s postId likes).filter Step.isStoreMutation
            = [.updateDoc ref (.arrayUnion u.uid)] ∧
          ∀ x, x ∈ likedBy (applyLikesOp likes (.arrayUnion u.uid))
            ↔ x ∈ likedBy likes ∨ x = u.uid) ∧
      (u.uid ∈ likedBy likes →
        (handleLike b s postId likes).filter Step.isStoreMutation
            = [.updateDoc ref (.arrayRemove u.uid)] ∧
          ∀ x, x ∈ likedBy (applyLikesOp likes (.arrayRemove u.uid))
            ↔ x ∈ likedBy likes ∧ x ≠ u.uid)) ∧
    (b.doc "posts" postId = none →
      (handleLike b s postId likes).filter Step.isStoreMutation = []) := by
  refine ⟨fun ref hdoc => ⟨?_, ?_⟩, fun hdoc => ?_⟩
  · intro hmem
    have hinc : likesIncludes likes u.uid = false := by
      cases likes with
      | none => rfl
      | some l => simpa [likesIncludes, likedBy] using hmem
    constructor
    · cases hb : b.updateDoc ref (.arrayUnion u.uid) <;>
        simp [handleLike, hu, hdoc, hinc, hb, Step.isStoreMutation]
    · intro x
      cases likes with
      | none => simp [applyLikesOp, likedBy]
      | some l =>
        have : ¬ u.uid ∈ l := by simpa [likedBy] using hmem
        simp [applyLikesOp, likedBy, this]
  · intro hmem
    have hinc : likesIncludes likes u.uid = true := by
      cases likes with
      | none => simp [likedBy] at hmem
      | some l => simpa [likesIncludes, likedBy] using hmem
    constructor
    · cases hb : b.updateDoc ref (.arrayRemove u.uid) <;>
        simp [handleLike, hu, hdoc, hinc, hb, Step.isStoreMutation]
    · intro x
      cases likes with
      | none => simp [likedBy] at hmem
      | some l => simp [applyLikesOp, likedBy]
  · simp [handleLike, hu, hdoc, Step.isStoreMutation]

/-- Instance of C2, the like scenario: with `p1` liked by `u1`, a toggle by `u2`
issues a set-add of `u2` on `posts/p1` and the store then holds `u1, u2`; a
second toggle issues a set-remove of `u2` and the store holds `u1` again. -/
theorem toggleLike_one_update_witness :
    (handleLike acceptingBackend u2SignedIn "p1" likedByU1).filter Step.isStoreMutation
        = [.updateDoc ["posts", "p1"] (.arrayUnion "u2")] ∧
    likesAfter acceptingBackend ["posts", "p1"] likedByU1
        (handleLike acceptingBackend u2SignedIn "p1" likedByU1) = some ["u1", "u2"] ∧
    (handleLike acceptingBackend u2SignedIn "p1" (some ["u1", "u2"])).filter Step.isStoreMutation
        = [.updateDoc ["posts", "p1"] (.arrayRemove "u2")] ∧
    likesAfter acceptingBackend ["posts", "p1"] (some ["u1", "u2"])
        (handleLike acceptingBackend u2SignedIn "p1" (some ["u1", "u2"])) = some ["u1"] :=
  ⟨(((toggleLike_one_update acceptingBackend u2SignedIn
        { uid := "u2", displayName := some "Bo", email := "bo@x.com" } "p1" likedByU1 rfl).1
      ["posts", "p1"] (by decide)).1 (by decide)).1,
   by decide,
   (((toggleLike_one_update acceptingBackend u2SignedIn
        { uid := "u2", displayName := some "Bo", email := "bo@x.com" } "p1"
        (some ["u1", "u2"]) rfl).1
      ["posts", "p1"] (by decide)).2 (by decide)).1,
   by decide⟩

/-- C2 as stated fails for a post id that names no document: for the id "a/b"
(three path segments with `posts`) and for the empty id, `doc` throws before the
`try` block, and `handleLike`, called by the signed-in `u2`, issues no update. -/
theorem toggleLike_invalid_id_no_update :
    u2SignedIn.user = some { uid := "u2", displayName := some "Bo", email := "bo@x.com" } ∧
    (handleLike acceptingBackend u2SignedIn "a/b" likedByU1).filter Step.isStoreMutation = [] ∧
    handleLike acceptingBackend u2SignedIn "a/b" likedByU1 = [.unhandledRejection] ∧
    (handleLike acceptingBackend u2SignedIn "" likedByU1).filter Step.isStoreMutation = [] := by
  decide

/-- Store-side likes of document `ref` after one `handleLike` call by a present
identity, when the store accepts updates of `ref`: unchanged unless `doc`
returns `ref`, and then the operator chosen by the handler, applied. -/
theorem likesAfter_handleLike (b : Backend) (s : AppState) (u : User) (postId : String)
    (ref : DocumentReference) (likes : Option (List String)) (hu : s.user = some u)
    (hok : ∀ op, b.updateDoc ref op = .ok ()) :
    likesAfter b ref likes (handleLike b s postId likes) =
      if b.doc "posts" postId = some ref then
        applyLikesOp likes
          (if likesIncludes likes u.uid then .arrayRemove u.uid else .arrayUnion u.uid)
      else likes := by
  cases hdoc : b.doc "posts" postId with
  | none => simp [handleLike, hu, hdoc, likesAfter]
  | some r =>
    by_cases hr : r = ref
    · subst hr
      cases hinc : likesIncludes likes u.uid <;>
        simp [handleLike, hu, hdoc, hinc, hok, likesAfter]
    · have hne : ¬ (some r = some ref) := by
        intro e
        exact hr (Option.some.inj e)
      cases hinc : likesIncludes likes u.uid <;>
        cases hb : b.updateDoc r (.arrayRemove u.uid) <;>
        cases hb2 : b.updateDoc r (.arrayUnion u.uid) <;>
        simp [handleLike, hu, hdoc, hinc, hb, hb2, likesAfter, hr, hne]

/-- C1: for a present identity, two successive `handleLike` calls on a post,
the second one reading the likes array the store holds after the first, leave
the set of user ids in the `likes` field as it was. This holds for the `likes`
field of every document `ref` whose updates the store accepts, the document of
the post in particular. -/
theorem toggleLike_twice_restores (b : Backend) (s : AppState) (u : User) (postId : String)
    (ref : DocumentReference) (likes : Option (List String)) (hu : s.user = some u)
    (hok : ∀ op, b.updateDoc ref op = .ok ()) :
    (likedBy
      (likesAfter b ref (likesAfter b ref likes (handleLike b s postId likes))
        (handleLike b s postId
          (likesAfter b ref likes (handleLike b s postId likes))))).toFinset
      = (likedBy likes).toFinset := by
  rw [likesAfter_handleLike b s u postId ref _ hu hok,
    likesAfter_handleLike b s u postId ref _ hu hok]
  by_cases hdoc : b.doc "posts" postId = some ref
  · simp only [hdoc, if_true]
    ext x
    cases likes with
    | none => simp [likesIncludes, applyLikesOp, likedBy]
    | some l =>
      by_cases h : u.uid ∈ l
      · by_cases hx : x = u.uid
        · subst hx
          simp [likesIncludes, applyLikesOp, likedBy, h]
        · simp [likesIncludes, applyLikesOp, likedBy, h, hx]
      · by_cases hx : x = u.uid
        · subst hx
          simp [likesIncludes, applyLikesOp, likedBy, h]
        · simp [likesIncludes, applyLikesOp, likedBy, h, hx]
  · simp [hdoc]

/-- Instance of C1: `u2` toggling twice on post `p1`, liked by `u1`, leaves `u1`
as its only liker. -/
theorem toggleLike_twice_restores_witness :
    (likedBy
      (likesAfter acceptingBackend ["posts", "p1"]
        (likesAfter acceptingBackend ["posts", "p1"] likedByU1
          (handleLike acceptingBackend u2SignedIn "p1" likedByU1))
        (handleLike acceptingBackend u2SignedIn "p1"
          (likesAfter acceptingBackend ["posts", "p1"] likedByU1
            (handleLike acceptingBackend u2SignedIn "p1" likedByU1))))).toFinset
      = (likedBy likedByU1).toFinset :=
  toggleLike_twice_restores acceptingBackend u2SignedIn
    { uid := "u2", displayName := some "Bo", email := "bo@x.com" } "p1" ["posts", "p1"]
    likedByU1 rfl (fun _ => rfl)

/-! ## Feed -/

/-- Posts held after each notification of a sequence: the documents of that
notification, mapped one to one, whatever was held before. -/
theorem feedStates_posts (s : AppState) (snaps : List QuerySnapshot) :
    (feedStates s snaps).map (fun st => st.posts)
      = snaps.map (fun snap => snap.docs.map postOfDoc) := by
  induction snaps generalizing s with
  | nil => rfl
  | cons snap rest ih =>
    simp only [feedStates, List.map_cons, ih]
    rfl

/-- The result of the posts query is in non-increasing order of creation time. -/
theorem postsQuery_sorted (collection : List StoredPost) :
    (postsQuery collection).docs.Pairwise
      (fun a b => ∃ x y, a.data.createdAt = some x ∧ b.data.createdAt = some y ∧ y ≤ x) := by
  have htot : IsTotal StoredPost (queryOrder .desc) := ⟨fun a b => le_total _ _⟩
  have htrans : IsTrans StoredPost (queryOrder .desc) := ⟨fun a b c h1 h2 => le_trans h2 h1⟩
  have hs := List.sorted_insertionSort (queryOrder .desc) collection
  simp only [postsQuery, liveQuery, List.pairwise_map]
  exact List.Pairwise.imp (fun {a b} hab => ⟨a.createdAt, b.createdAt, rfl, rfl, hab⟩) hs

/-- C4: the handler of the posts subscription replaces `posts` with one entry
per document of the notification, in the delivered order, whatever `posts` held
before; so for every sequence of contents of the `posts` collection, notified
through the posts query (ordered by `createdAt`, descending), the posts held
after each notification are non-increasing by `createdAt`, and the feed shows
one card per post held, in the same order, hence non-increasing by `createdAt`
as well. -/
theorem feed_sorted_after_each_notification (s : AppState) (snaps : List QuerySnapshot)
    (stores : List (List StoredPost)) :
    (feedStates s snaps).map (fun st => st.posts)
        = snaps.map (fun snap => snap.docs.map postOfDoc) ∧
    ∀ st ∈ feedStates s (stores.map postsQuery),
      st.posts.Pairwise
        (fun a b => ∃ x y, a.createdAt = some x ∧ b.createdAt = some y ∧ y ≤ x) ∧
      (feedCards st).map (fun card => (card.key, card.createdAt))
        = st.posts.map (fun post => (post.id, post.createdAt)) ∧
      (feedCards st).Pairwise
        (fun a b => ∃ x y, a.createdAt = some x ∧ b.createdAt = some y ∧ y ≤ x) := by
  refine ⟨feedStates_posts s snaps, ?_⟩
  intro st hst
  have hmem : st.posts ∈ (feedStates s (stores.map postsQuery)).map (fun st => st.posts) :=
    List.mem_map_of_mem _ hst
  rw [feedStates_posts] at hmem
  obtain ⟨snap, hsnap, hposts⟩ := List.mem_map.mp hmem
  obtain ⟨collection, _, rfl⟩ := List.mem_map.mp hsnap
  have hp : st.posts.Pairwise
      (fun a b => ∃ x y, a.createdAt = some x ∧ b.createdAt = some y ∧ y ≤ x) := by
    rw [← hposts, List.pairwise_map]
    exact postsQuery_sorted collection
  refine ⟨hp, ?_, ?_⟩
  · simp [feedCards]
  · rw [feedCards, List.pairwise_map]
    exact hp

/-- Instance of C4: the two sample contents of the collection, each listing its
posts oldest first, are held and shown newest first after their notification. -/
theorem feed_sorted_after_each_notification_witness :
    (feedStates AppState.init (sampleStores.map postsQuery)).map
        (fun st => st.posts.map (fun post => (post.id, post.createdAt)))
      = [[("p1", some 1000)], [("p2", some 2000), ("p1", some 1000)]] ∧
    List.Forall
      (fun st =>
        st.posts.Pairwise
          (fun a b => ∃ x y, a.createdAt = some x ∧ b.createdAt = some y ∧ y ≤ x) ∧
        (feedCards st).map (fun card => (card.key, card.createdAt))
          = st.posts.map (fun post => (post.id, post.createdAt)) ∧
        (feedCards st).Pairwise
          (fun a b => ∃ x y, a.createdAt = some x ∧ b.createdAt = some y ∧ y ≤ x))
      (feedStates AppState.init (sampleStores.map postsQuery)) :=
  ⟨by decide,
   List.forall_iff_forall_mem.mpr
     (feed_sorted_after_each_notification AppState.init [] sampleStores).2⟩

/-! ## Cook time -/

/-- Every insert of `handleCreatePost` carries the record built from the form,
the identity and some photo URL. -/
theorem addDoc_mem_handleCreatePost (b : Backend) (s : AppState) (coll : String)
    (r : PostRecord) (hmem : Step.addDoc coll r ∈ handleCreatePost b s) :
    ∃ u url, s.user = some u ∧ r = createPostRecord s u url := by
  cases hu : s.user with
  | none =>
    cases hp : s.photo <;>
      simp [handleCreatePost, createPostInsert, createPostCatch, hu, hp] at hmem
  | some u =>
    have hins : ∀ url, Step.addDoc coll r ∈ createPostInsert b s url →
        r = createPostRecord s u url := by
      intro url h
      cases ha : b.addDoc "posts" (createPostRecord s u url) <;>
        simp [createPostInsert, createPostCatch, hu, ha] at h <;> exact h.2
    cases hp : s.photo with
    | none =>
      refine ⟨u, "", rfl, hins "" ?_⟩
      simpa [handleCreatePost, hp] using hmem
    | some f =>
      cases hup : b.uploadBytes (storagePath u b.now f) f with
      | error e => simp [handleCreatePost, createPostCatch, hu, hp, hup] at hmem
      | ok v =>
        cases hurl : b.getDownloadURL (storagePath u b.now f) with
        | error e => simp [handleCreatePost, createPostCatch, hu, hp, hup, hurl] at hmem
        | ok url =>
          refine ⟨u, url, rfl, hins url ?_⟩
          simpa [handleCreatePost, hu, hp, hup, hurl] using hmem

/-- C6, as the code has it: when the cook-time text is the decimal numeral of a
natural number `n` (at most 2^53, so that the Number is exact), every record
that `handleCreatePost` inserts has `cookTime = n`, a non-negative integer equal
to the number entered. -/
theorem createPost_cookTime_of_numeral (b : Backend) (s : AppState) (n : Nat)
    (hn : n ≤ 9007199254740992) (hc : s.cookTime = toString n) :
    ∀ coll r, Step.addDoc coll r ∈ handleCreatePost b s → r.cookTime = some (n : Int) := by
  intro coll r hmem
  have _ := hn
  obtain ⟨u, url, _, rfl⟩ := addDoc_mem_handleCreatePost b s coll r hmem
  simp only [createPostRecord, hc, parseInt_toString]

/-- Instance of C6: the Pizza form, cook time "45", inserts a record with
`cookTime = 45`. -/
theorem createPost_cookTime_of_numeral_witness :
    Step.addDoc "posts" (createPostRecord pizzaForm ana
        "https://storage.example/posts/u1/1700000000000_pizza.png")
      ∈ handleCreatePost acceptingBackend pizzaForm ∧
    (createPostRecord pizzaForm ana
        "https://storage.example/posts/u1/1700000000000_pizza.png").cookTime = some 45 :=
  have hmem : Step.addDoc "posts" (createPostRecord pizzaForm ana
        "https://storage.example/posts/u1/1700000000000_pizza.png")
      ∈ handleCreatePost acceptingBackend pizzaForm := by
    decide
  ⟨hmem, createPost_cookTime_of_numeral acceptingBackend pizzaForm 45 (by decide) rfl "posts" _
    hmem⟩

/-- C6 as stated fails: the cook-time input is a number input without a lower
bound, so the form can submit the text "-5", and the record inserted then has
`cookTime = -5`, which is negative. -/
theorem createPost_negative_cookTime :
    ∃ r, Step.addDoc "posts" r ∈
        handleCreatePost acceptingBackend { pizzaForm with cookTime := "-5", photo := none } ∧
      r.cookTime = some (-5) ∧ ¬ ((0 : Int) ≤ -5) := by
  refine ⟨createPostRecord { pizzaForm with cookTime := "-5", photo := none } ana "", ?_, ?_,
    by decide⟩
  · simp [handleCreatePost, createPostInsert, acceptingBackend, pizzaForm]
  · rfl

end CookShare
